import Mathlib

/-!
Verification of the iRedAPD `throttling` plugin (plugins/throttling.py).

The plugin decides, per SMTP protocol phase, whether a message is allowed or
rejected given priority-ordered throttle records, and (in the
END-OF-MESSAGE phase) commits staged counter updates to the database.

The shallow embedding below mirrors the Python source:
  * `convert_throttle_setting_to_dict` (lines 114-142),
  * `apply_throttle` (lines 146-311), decomposed into the per-record loop
    (`throttle_loop`, lines 190-297) and the commit loop
    (`commit_updates`, lines 299-309),
  * `restriction` (lines 314-359).

Modelling conventions:
  * the database rows returned by the SELECT (lines 164-175) are a list of
    `Rcd`, in the ORDER BY priority DESC order the code walks them in;
  * `int(time.time())` is modelled by a single `now : Int` parameter
    (time is frozen for the duration of one call);
  * Python exceptions are modelled with `Except PyErr`;
  * the SQL UPDATE statements actually passed to `conn.execute` are
    returned alongside the verdict, so "no stored field changes" is
    expressed as "the list of executed updates is empty".
-/

namespace Throttling

/-- The protocol-state string compared at lines 241 and 254. -/
def rcpt_state : String := "RCPT"

/-- The protocol-state string compared at lines 254 and 300. -/
def eom_state : String := "END-OF-MESSAGE"

/-- The SMTP actions this plugin can return.  `default` is
`SMTP_ACTIONS[ <<default>> ]`, the pass-through verdict. -/
inductive Action where
  | default
  | reject_exceed_max_msgs
  | reject_exceed_msg_size
  | reject_exceed_max_quota
deriving DecidableEq, Repr

/-- Python runtime errors the modelled code can raise. -/
inductive PyErr where
  | typeError
  | valueError
deriving DecidableEq, Repr

/-- One row of `throttle_sender` / `throttle_rcpt`, in the column order of
the SELECT at lines 164-171. -/
structure Rcd where
  id : Int
  user : String
  priority : Int
  period : Int
  max_msgs : Int
  max_quota : Int
  msg_size : Int
  cur_msgs : Int
  cur_quota : Int
  init_time : Int
  last_time : Int
deriving DecidableEq, Repr

/-- The SQL SET fragments appended to `sql_update_sets[t_id]`
(lines 266, 278, 282-297), kept symbolic. -/
inductive Assign where
  | total_msgs_inc
  | total_quota_add (size : Int)
  | init_time_set (t : Int)
  | cur_msgs_one
  | cur_quota_set (size : Int)
  | cur_msgs_inc
  | cur_quota_add (size : Int)
  | last_time_set (t : Int)
deriving DecidableEq, Repr

/-- The three `continue_check_*` flags initialised at lines 183-185. -/
structure Flags where
  continue_check_msg_size : Bool
  continue_check_max_msgs : Bool
  continue_check_max_quota : Bool
deriving DecidableEq, Repr

def initial_flags : Flags :=
  { continue_check_msg_size := true
    continue_check_max_msgs := true
    continue_check_max_quota := true }

/-- `sql_update_sets` is a Python dict from record id to a list of SET
fragments; modelled as an insertion-ordered association list. -/
abbrev Sets : Type := List (Int × List Assign)

/-- `sql_update_sets[t_id] = []` (line 201): overwrite an existing key,
otherwise insert at the end. -/
def dict_set (d : Sets) (k : Int) (v : List Assign) : Sets :=
  if d.any (fun kv => kv.1 == k) then
    d.map (fun kv => if kv.1 == k then (kv.1, v) else kv)
  else
    d ++ [(k, v)]

/-- `sql_update_sets[t_id].append(a)`. -/
def dict_append (d : Sets) (k : Int) (a : Assign) : Sets :=
  d.map (fun kv => if kv.1 == k then (kv.1, kv.2 ++ [a]) else kv)

/-- Line 224: `now > (init_time + period)`. -/
def tracking_expired (now : Int) (rcd : Rcd) : Bool :=
  decide (rcd.init_time + rcd.period < now)

/-- The `cur_msgs` value used by the checks: reset to 0 at lines 230-231
when the tracking window expired. -/
def eff_cur_msgs (now : Int) (rcd : Rcd) : Int :=
  if tracking_expired now rcd then 0 else rcd.cur_msgs

/-- The `cur_quota` value used by the checks: reset to 0 at lines 230-231
when the tracking window expired. -/
def eff_cur_quota (now : Int) (rcd : Rcd) : Int :=
  if tracking_expired now rcd then 0 else rcd.cur_quota

/-- Outcome of the per-record loop (lines 190-297): either an early
`return` with an action, or falling through to the commit step with the
final flags, the staged `sql_update_sets` and the leftover loop variable
`t_id` (the id of the last record iterated). -/
inductive LoopOut where
  | ret (a : Action)
  | done (fl : Flags) (sets : Sets) (last_id : Option Int)
deriving DecidableEq, Repr

/-- Message-size check of the END-OF-MESSAGE branch (lines 256-266);
`Sum.inl` is an early `return`. -/
def msg_size_check (size : Int) (rcd : Rcd) (fl : Flags) (sets0 : Sets) :
    Sum Action (Flags × Sets) :=
  if fl.continue_check_msg_size then
    let fl1 := if 0 ≤ rcd.msg_size then
      { fl with continue_check_msg_size := false } else fl
    if 0 < rcd.msg_size then
      if rcd.msg_size < size then Sum.inl Action.reject_exceed_msg_size
      else Sum.inr (fl1, dict_append sets0 rcd.id Assign.total_msgs_inc)
    else Sum.inr (fl1, sets0)
  else Sum.inr (fl, sets0)

/-- Max-quota check of the END-OF-MESSAGE branch (lines 269-278). -/
def max_quota_check (size now : Int) (rcd : Rcd) (fl1 : Flags)
    (sets1 : Sets) : Sum Action (Flags × Sets) :=
  if fl1.continue_check_max_quota then
    let fl2 := if 0 ≤ rcd.max_quota then
      { fl1 with continue_check_max_quota := false } else fl1
    if 0 < rcd.max_quota then
      if rcd.max_quota ≤ eff_cur_quota now rcd then
        Sum.inl Action.reject_exceed_max_quota
      else Sum.inr (fl2, dict_append sets1 rcd.id
        (Assign.total_quota_add size))
    else Sum.inr (fl2, sets1)
  else Sum.inr (fl1, sets1)

/-- Staging of the counter updates (lines 280-297). -/
def stage_updates (size now : Int) (rcd : Rcd) (sets2 : Sets) : Sets :=
  let sets3 :=
    if tracking_expired now rcd then
      let s1 := dict_append sets2 rcd.id (Assign.init_time_set now)
      let s2 := if rcd.max_msgs ≠ 0 then
        dict_append s1 rcd.id Assign.cur_msgs_one else s1
      if rcd.max_quota ≠ 0 then
        dict_append s2 rcd.id (Assign.cur_quota_set size) else s2
    else
      let s1 := if rcd.max_msgs ≠ 0 then
        dict_append sets2 rcd.id Assign.cur_msgs_inc else sets2
      if rcd.max_quota ≠ 0 then
        dict_append s1 rcd.id (Assign.cur_quota_add size) else s1
  dict_append sets3 rcd.id (Assign.last_time_set now)

/-- Body of the END-OF-MESSAGE branch (lines 254-297) for one record:
message-size check, max-quota check, then staging of the counter
updates. -/
def eom_step (size now : Int) (rcd : Rcd) (fl : Flags) (sets0 : Sets) :
    Sum Action (Flags × Sets) :=
  match msg_size_check size rcd fl sets0 with
  | Sum.inl a => Sum.inl a
  | Sum.inr (fl1, sets1) =>
    match max_quota_check size now rcd fl1 sets1 with
    | Sum.inl a => Sum.inl a
    | Sum.inr (fl2, sets2) =>
      Sum.inr (fl2, stage_updates size now rcd sets2)

/-- The per-record loop, lines 190-297 of `apply_throttle`. -/
def throttle_loop (protocol_state : String) (size now : Int) :
    List Rcd → Flags → Sets → Option Int → LoopOut
  | [], fl, sets, last_id => LoopOut.done fl sets last_id
  | rcd :: rest, fl, sets0, _ =>
    -- Lines 195-198: if no period, return the default action.
    if rcd.period = 0 then LoopOut.ret Action.default
    else
      -- Line 201: sql_update_sets[t_id] = []
      let sets1 := dict_set sets0 rcd.id []
      -- Lines 241-252: RCPT branch (max_msgs check only, no staging)
      if protocol_state = rcpt_state ∧ fl.continue_check_max_msgs = true then
        if 0 < rcd.max_msgs ∧ rcd.max_msgs ≤ eff_cur_msgs now rcd then
          LoopOut.ret Action.reject_exceed_max_msgs
        else
          let fl1 := if 0 ≤ rcd.max_msgs then
            { fl with continue_check_max_msgs := false } else fl
          throttle_loop protocol_state size now rest fl1 sets1 (some rcd.id)
      -- Lines 254-297: END-OF-MESSAGE branch
      else if protocol_state = eom_state ∧
          (fl.continue_check_msg_size = true ∨
           fl.continue_check_max_quota = true) then
        match eom_step size now rcd fl sets1 with
        | Sum.inl a => LoopOut.ret a
        | Sum.inr (fl2, sets2) =>
          throttle_loop protocol_state size now rest fl2 sets2 (some rcd.id)
      else
        throttle_loop protocol_state size now rest fl sets1 (some rcd.id)

/-- One executed `UPDATE %s SET %s WHERE id=%d` (lines 303-309). -/
structure UpdateStmt where
  set_clause : String
  where_id : Int
deriving DecidableEq, Repr

/-- `','.join(update_set)` at line 302, where `update_set` ranges over the
KEYS of the dict (`for update_set in sql_update_sets`), i.e. over the
integer record ids: joining an integer raises `TypeError: can only join an
iterable`. -/
def py_comma_join_int (_update_set : Int) : Except PyErr String :=
  Except.error PyErr.typeError

/-- One iteration of the commit loop body (lines 301-309): first compute
`','.join(update_set)` from the iterated dict KEY, then format the UPDATE
with `t_id`, the loop variable left over from the record loop (the id of
the LAST record read), not the id the fragments were staged under. -/
def commit_iteration (update_set : Int) (t_id : Int) :
    Except PyErr UpdateStmt :=
  match py_comma_join_int update_set with
  | Except.error e => Except.error e
  | Except.ok sql_update_set =>
    Except.ok { set_clause := sql_update_set, where_id := t_id }

def commit_go (t_id : Int) : List Int → Except PyErr (List UpdateStmt)
  | [] => Except.ok []
  | update_set :: rest =>
    match commit_iteration update_set t_id with
    | Except.error e => Except.error e
    | Except.ok stmt =>
      match commit_go t_id rest with
      | Except.error e => Except.error e
      | Except.ok stmts => Except.ok (stmt :: stmts)

/-- The commit loop, lines 301-309: `for update_set in sql_update_sets`
iterates the dict's keys. -/
def commit_updates (sql_update_sets : Sets) (t_id : Int) :
    Except PyErr (List UpdateStmt) :=
  commit_go t_id (sql_update_sets.map (fun kv => kv.1))

/-- Data flow of the commit loop before Python's dynamic failure: for each
dict entry, the pair (argument handed to the comma-join, WHERE id used).
The join argument is the entry's KEY (not its staged assignment list) and
the WHERE id is the leftover `t_id` for every entry. -/
def commit_attempts (sql_update_sets : Sets) (t_id : Int) :
    List (Int × Int) :=
  sql_update_sets.map (fun kv => (kv.1, t_id))

/-- `apply_throttle` (lines 146-311), with the SELECT result passed in as
`sql_records` (in ORDER BY priority DESC order).  Returns the SMTP action
together with the UPDATE statements actually executed. -/
def apply_throttle (sql_records : List Rcd) (protocol_state : String)
    (size now : Int) : Except PyErr (Action × List UpdateStmt) :=
  match sql_records with
  | [] => Except.ok (Action.default, [])   -- lines 179-180
  | _ :: _ =>
    match throttle_loop protocol_state size now sql_records
        initial_flags [] none with
    | LoopOut.ret a => Except.ok (a, [])
    | LoopOut.done _ sets last_id =>
      -- Line 300: if protocol_state == eom and sql_update_sets:
      if protocol_state = eom_state ∧ sets ≠ [] then
        match last_id with
        | some t_id =>
          match commit_updates sets t_id with
          | Except.error e => Except.error e
          | Except.ok stmts => Except.ok (Action.default, stmts)
        | none => Except.ok (Action.default, [])  -- unreachable: sets ≠ []
      else Except.ok (Action.default, [])  -- line 311

/-- Modelled from the spec: the `SMTP_ACTIONS` table lives in `libs/`,
outside the provided sources.  Per the spec the engine's pass-through
verdict is the allow/default action (wire string `DUNNO`, tested with
`action.startswith` at lines 345 and 356); every reject verdict maps to a
REJECT wire string. -/
def startswith_dunno : Action → Bool
  | Action.default => true
  | _ => false

/-- `restriction` (lines 314-359).  The two SELECT results are passed in
as `sender_records` / `rcpt_records`; `is_trusted` is the
`is_trusted_client(client_address)` predicate value and `bypass` the
`settings.THROTTLE_BYPASS_MYNETWORKS` flag (spec section 6 inbound
interface).  The `Nat` in the result counts how many throttle-table
lookups (calls of `apply_throttle`, one SELECT each) were performed. -/
def restriction (sender_records rcpt_records : List Rcd)
    (sender_domain recipient_domain : String)
    (bypass is_trusted : Bool)
    (protocol_state : String) (size now : Int) :
    Except PyErr (Action × Nat × List UpdateStmt) :=
  -- Lines 329-331: same-domain bypass
  if sender_domain = recipient_domain then
    Except.ok (Action.default, 0, [])
  -- Lines 333-335: trusted-network bypass
  else if bypass && is_trusted then
    Except.ok (Action.default, 0, [])
  else
    -- Lines 337-346: sender throttling
    match apply_throttle sender_records protocol_state size now with
    | Except.error e => Except.error e
    | Except.ok (action, us) =>
      if startswith_dunno action = false then Except.ok (action, 1, us)
      else
        -- Lines 348-357: recipient throttling
        match apply_throttle rcpt_records protocol_state size now with
        | Except.error e => Except.error e
        | Except.ok (action2, us2) =>
          if startswith_dunno action2 = false then
            Except.ok (action2, 2, us ++ us2)
          else Except.ok (Action.default, 2, us ++ us2)  -- line 359

/-! ## The settings parser, `convert_throttle_setting_to_dict` -/

/-- Python `s.split(sep)` for a one-character separator: splits on every
occurrence, keeping empty fragments; `[] ↦ [[]]`. -/
def py_split (sep : Char) : List Char → List (List Char)
  | [] => [[]]
  | c :: rest =>
    match py_split sep rest with
    | [] => [[]]
    | g :: gs => if c = sep then [] :: g :: gs else (c :: g) :: gs

/-- Python `str.strip()` used implicitly by `int()`: drop surrounding
whitespace. -/
def py_strip (cs : List Char) : List Char :=
  ((cs.dropWhile Char.isWhitespace).reverse.dropWhile Char.isWhitespace).reverse

def digits_to_nat (cs : List Char) : Nat :=
  cs.foldl (fun a c => a * 10 + (c.toNat - Char.toNat '0')) 0

def parse_digits (cs : List Char) : Option Nat :=
  if cs ≠ [] ∧ cs.all Char.isDigit then some (digits_to_nat cs) else none

/-- Python `int(value)` on a string: optional surrounding whitespace,
optional sign, then decimal digits; anything else raises (here: `none`,
the caller swallows it). -/
def py_int_of_chars (cs : List Char) : Option Int :=
  match py_strip cs with
  | [] => none
  | c :: rest =>
    if c = '-' then (parse_digits rest).map (fun n => -(n : Int))
    else if c = '+' then (parse_digits rest).map (fun n => (n : Int))
    else (parse_digits (c :: rest)).map (fun n => (n : Int))

/-- A parsed setting value: `int(value)` when it succeeds, otherwise the
raw string is kept (the bare `except: pass` at lines 135-138). -/
inductive SVal where
  | int (i : Int)
  | str (s : List Char)
deriving DecidableEq, Repr

/-- `sd[key] = value` on the result dict. -/
def dict_set_sval (sd : List (List Char × SVal)) (k : List Char) (v : SVal) :
    List (List Char × SVal) :=
  if sd.any (fun kv => kv.1 == k) then
    sd.map (fun kv => if kv.1 == k then (kv.1, v) else kv)
  else
    sd ++ [(k, v)]

/-- The body of the parser loop (lines 130-140).  A fragment that splits
on `:` into anything other than exactly two parts makes the tuple
unpacking `key, value = item.split(<<:>>)` raise ValueError. -/
def convert_go (value_is_integer : Bool) :
    List (List Char) → List (List Char × SVal) →
    Except PyErr (List (List Char × SVal))
  | [], sd => Except.ok sd
  | item :: rest, sd =>
    if item = [] then convert_go value_is_integer rest sd
    else
      match py_split ':' item with
      | [key, value] =>
        let v : SVal :=
          if value_is_integer then
            match py_int_of_chars value with
            | some n => SVal.int n
            | none => SVal.str value
          else SVal.str value
        convert_go value_is_integer rest (dict_set_sval sd key v)
      | _ => Except.error PyErr.valueError

/-- `convert_throttle_setting_to_dict` (lines 114-142). -/
def convert_throttle_setting_to_dict (s : String)
    (value_is_integer : Bool) : Except PyErr (List (List Char × SVal)) :=
  if s = ("") then Except.ok []
  else
    -- line 129: [st for st in s.split(<<;>>) if <<:>> in st]
    let setting_items :=
      (py_split ';' s.toList).filter (fun st => st.any (fun c => c == ':'))
    convert_go value_is_integer setting_items []

/-! ## Per-dimension resolution (spec section 4.4) -/

/-- The first record in walk order whose value for the given dimension is
not the inherit marker (`-1`, i.e. any negative value defers): this is the
record whose `continue_check_*` flag is still set when it is reached. -/
def find_auth (f : Rcd → Int) (rs : List Rcd) : Option Rcd :=
  rs.find? (fun r => decide (0 ≤ f r))

/-- The flags after a non-rejecting END-OF-MESSAGE record step: a
`continue_check_*` flag survives only when the record's value for that
dimension is negative (the inherit marker); `continue_check_max_msgs` is
untouched in this phase. -/
def flags_after_eom (fl : Flags) (rcd : Rcd) : Flags :=
  { fl with
    continue_check_msg_size :=
      if rcd.msg_size < 0 then fl.continue_check_msg_size else false
    continue_check_max_quota :=
      if rcd.max_quota < 0 then fl.continue_check_max_quota else false }

/-- The staged `sql_update_sets` after a non-rejecting END-OF-MESSAGE
record step (the appends of lines 266, 278 and 280-297). -/
def staged (size now : Int) (rcd : Rcd) (fl : Flags) (sets1 : Sets) :
    Sets :=
  let sA := if fl.continue_check_msg_size = true ∧ 0 < rcd.msg_size then
      dict_append sets1 rcd.id Assign.total_msgs_inc else sets1
  let sB := if fl.continue_check_max_quota = true ∧ 0 < rcd.max_quota then
      dict_append sA rcd.id (Assign.total_quota_add size) else sA
  stage_updates size now rcd sB

/-- The scenario record of spec section 8 (priority 10, period 360,
max_msgs 100, max_quota 4096000000, msg_size 10240000, cur_msgs 99,
cur_quota 0, init_time = now - 100 with now = 1000). -/
def rcd_base : Rcd where
  id := 1
  user := "user@domain.com"
  priority := 10
  period := 360
  max_msgs := 100
  max_quota := 4096000000
  msg_size := 10240000
  cur_msgs := 99
  cur_quota := 0
  init_time := 900
  last_time := 900

/-- A record whose three limit fields are all `0` (authoritative,
unlimited): in the END-OF-MESSAGE phase it passes every check and stages
only `last_time`. -/
def rcd_zeroA : Rcd :=
  { rcd_base with id := 1, max_msgs := 0, max_quota := 0, msg_size := 0 }

/-- Second all-zero record, with a different id. -/
def rcd_zeroB : Rcd :=
  { rcd_base with id := 2, max_msgs := 0, max_quota := 0, msg_size := 0 }

/-- A record that defers every dimension to lower priority (`-1`). -/
def rcd_inherit : Rcd :=
  { rcd_base with id := 11, max_msgs := -1, msg_size := -1, max_quota := -1 }

/-- A lower-priority record authoritative for `max_msgs` (1, exceeded),
`msg_size` (50) and, with value `0`, for `max_quota` (unlimited). -/
def rcd_low : Rcd :=
  { rcd_base with id := 12, max_msgs := 1, cur_msgs := 5, msg_size := 50, max_quota := 0 }

/-- A lower-priority record authoritative only for `max_quota`
(10, exceeded by the stored quota of 20). -/
def rcd_quota : Rcd :=
  { rcd_base with id := 13, max_msgs := -1, msg_size := -1, max_quota := 10, cur_quota := 20 }

end Throttling

deriving instance DecidableEq for Except

namespace Throttling

/-! ## Helper lemmas -/

theorem msg_size_check_eq (size : Int) (rcd : Rcd) (fl : Flags)
    (sets0 : Sets) :
    msg_size_check size rcd fl sets0 =
      if fl.continue_check_msg_size = true ∧ 0 < rcd.msg_size ∧
          rcd.msg_size < size then
        Sum.inl Action.reject_exceed_msg_size
      else
        Sum.inr
          ({ fl with continue_check_msg_size :=
              if rcd.msg_size < 0 then fl.continue_check_msg_size
              else false },
           if fl.continue_check_msg_size = true ∧ 0 < rcd.msg_size then
             dict_append sets0 rcd.id Assign.total_msgs_inc else sets0) := by
  obtain ⟨cms, cmm, cmq⟩ := fl
  simp only [msg_size_check]
  cases cms
  all_goals split_ifs
  all_goals (try simp_all)
  all_goals omega

theorem max_quota_check_eq (size now : Int) (rcd : Rcd) (fl1 : Flags)
    (sets1 : Sets) :
    max_quota_check size now rcd fl1 sets1 =
      if fl1.continue_check_max_quota = true ∧ 0 < rcd.max_quota ∧
          rcd.max_quota ≤ eff_cur_quota now rcd then
        Sum.inl Action.reject_exceed_max_quota
      else
        Sum.inr
          ({ fl1 with continue_check_max_quota :=
              if rcd.max_quota < 0 then fl1.continue_check_max_quota
              else false },
           if fl1.continue_check_max_quota = true ∧ 0 < rcd.max_quota then
             dict_append sets1 rcd.id (Assign.total_quota_add size)
           else sets1) := by
  obtain ⟨cms, cmm, cmq⟩ := fl1
  simp only [max_quota_check]
  cases cmq
  all_goals split_ifs
  all_goals (try simp_all)
  all_goals omega

theorem eom_step_eq (size now : Int) (rcd : Rcd) (fl : Flags)
    (sets0 : Sets) :
    eom_step size now rcd fl sets0 =
      if fl.continue_check_msg_size = true ∧ 0 < rcd.msg_size ∧
          rcd.msg_size < size then
        Sum.inl Action.reject_exceed_msg_size
      else if fl.continue_check_max_quota = true ∧ 0 < rcd.max_quota ∧
          rcd.max_quota ≤ eff_cur_quota now rcd then
        Sum.inl Action.reject_exceed_max_quota
      else
        Sum.inr (flags_after_eom fl rcd, staged size now rcd fl sets0) := by
  by_cases hA : fl.continue_check_msg_size = true ∧ 0 < rcd.msg_size ∧
      rcd.msg_size < size
  · simp [eom_step, msg_size_check_eq, hA]
  · by_cases hB : fl.continue_check_max_quota = true ∧ 0 < rcd.max_quota ∧
        rcd.max_quota ≤ eff_cur_quota now rcd
    · simp [eom_step, msg_size_check_eq, max_quota_check_eq, hA, hB]
    · simp [eom_step, msg_size_check_eq, max_quota_check_eq, hA, hB,
        flags_after_eom, staged]

theorem dict_set_ne_nil (d : Sets) (k : Int) (v : List Assign) :
    dict_set d k v ≠ [] := by
  unfold dict_set
  split_ifs with h
  · cases d
    · simp at h
    · simp
  · simp

theorem dict_append_ne_nil (d : Sets) (k : Int) (a : Assign)
    (hd : d ≠ []) : dict_append d k a ≠ [] := by
  unfold dict_append
  simpa using hd

theorem stage_updates_ne_nil (size now : Int) (rcd : Rcd) (sets2 : Sets)
    (h : sets2 ≠ []) : stage_updates size now rcd sets2 ≠ [] := by
  simp only [stage_updates]
  apply dict_append_ne_nil
  split_ifs <;> (repeat' apply dict_append_ne_nil) <;> exact h

theorem staged_ne_nil (size now : Int) (rcd : Rcd) (fl : Flags)
    (sets1 : Sets) (h : sets1 ≠ []) :
    staged size now rcd fl sets1 ≠ [] := by
  simp only [staged]
  apply stage_updates_ne_nil
  split_ifs <;> (repeat' apply dict_append_ne_nil) <;> exact h

theorem commit_updates_error (sets : Sets) (t_id : Int) (h : sets ≠ []) :
    commit_updates sets t_id = Except.error PyErr.typeError := by
  rcases sets with _ | ⟨kv, tl⟩
  · exact absurd rfl h
  · rfl

/-- Any non-exceptional `apply_throttle` call executes no UPDATE at all:
early returns skip the commit loop, and when the commit loop does run it
raises TypeError before reaching `conn.execute`. -/
theorem apply_throttle_ok_stmts_nil (rs : List Rcd) (ps : String)
    (size now : Int) (a : Action) (stmts : List UpdateStmt)
    (h : apply_throttle rs ps size now = Except.ok (a, stmts)) :
    stmts = [] := by
  rcases rs with _ | ⟨r, tl⟩
  · simp [apply_throttle] at h
    exact h.2
  · simp only [apply_throttle] at h
    split at h
    next b =>
      simp at h
      exact h.2
    next =>
      rename_i fl2 sets2 li2 heq
      by_cases hg : ps = eom_state ∧ sets2 ≠ []
      · rw [if_pos hg] at h
        rcases li2 with _ | t_id
        · simp at h
          exact h.2
        · simp [commit_updates_error sets2 t_id hg.2] at h
      · rw [if_neg hg] at h
        simp at h
        exact h.2

/-- The record loop decomposes along list append. -/
theorem throttle_loop_append (ps : String) (size now : Int)
    (xs ys : List Rcd) :
    ∀ (fl : Flags) (sets : Sets) (li : Option Int),
    throttle_loop ps size now (xs ++ ys) fl sets li =
      match throttle_loop ps size now xs fl sets li with
      | LoopOut.ret a => LoopOut.ret a
      | LoopOut.done fl2 sets2 li2 =>
          throttle_loop ps size now ys fl2 sets2 li2 := by
  induction xs with
  | nil =>
    intro fl sets li
    simp [throttle_loop]
  | cons rcd rest ih =>
    intro fl sets li
    simp only [List.cons_append, throttle_loop]
    by_cases hp : rcd.period = 0
    · simp only [if_pos hp]
    · simp only [if_neg hp]
      by_cases hg1 : ps = rcpt_state ∧ fl.continue_check_max_msgs = true
      · simp only [if_pos hg1]
        by_cases hrej : 0 < rcd.max_msgs ∧
            rcd.max_msgs ≤ eff_cur_msgs now rcd
        · simp only [if_pos hrej]
        · simp only [if_neg hrej]
          exact ih _ _ _
      · simp only [if_neg hg1]
        by_cases hg2 : ps = eom_state ∧
            (fl.continue_check_msg_size = true ∨
             fl.continue_check_max_quota = true)
        · simp only [if_pos hg2]
          rcases he : eom_step size now rcd fl (dict_set sets rcd.id [])
            with a | ⟨fl2, sets2⟩
          · simp only [he]
          · simp only [he]
            exact ih _ _ _
        · simp only [if_neg hg2]
          exact ih _ _ _

/-- A completed single-record step records that record's id as the
leftover loop variable. -/
theorem throttle_loop_single_done (ps : String) (size now : Int)
    (r : Rcd) (fl : Flags) (sets : Sets) (li : Option Int) (fl2 : Flags)
    (sets2 : Sets) (li2 : Option Int)
    (h : throttle_loop ps size now [r] fl sets li =
      LoopOut.done fl2 sets2 li2) : li2 = some r.id := by
  simp only [throttle_loop] at h
  by_cases hp : r.period = 0
  · rw [if_pos hp] at h; cases h
  · rw [if_neg hp] at h
    by_cases hg1 : ps = rcpt_state ∧ fl.continue_check_max_msgs = true
    · rw [if_pos hg1] at h
      by_cases hrej : 0 < r.max_msgs ∧ r.max_msgs ≤ eff_cur_msgs now r
      · rw [if_pos hrej] at h; cases h
      · rw [if_neg hrej] at h; cases h; rfl
    · rw [if_neg hg1] at h
      by_cases hg2 : ps = eom_state ∧
          (fl.continue_check_msg_size = true ∨
           fl.continue_check_max_quota = true)
      · rw [if_pos hg2] at h
        rcases he : eom_step size now r fl (dict_set sets r.id [])
          with a | ⟨fl3, sets3⟩
        · rw [he] at h; cases h
        · rw [he] at h; cases h; rfl
      · rw [if_neg hg2] at h; cases h; rfl

/-- When the record loop falls through to the commit step, its id is the
last record's id. -/
theorem throttle_loop_last_id (ps : String) (size now : Int)
    (xs : List Rcd) (r : Rcd) (fl : Flags) (sets : Sets) (li : Option Int)
    (fl2 : Flags) (sets2 : Sets) (li2 : Option Int)
    (h : throttle_loop ps size now (xs ++ [r]) fl sets li =
      LoopOut.done fl2 sets2 li2) : li2 = some r.id := by
  rw [throttle_loop_append] at h
  rcases hx : throttle_loop ps size now xs fl sets li
    with a | ⟨fl3, sets3, li3⟩
  · rw [hx] at h; cases h
  · rw [hx] at h
    exact throttle_loop_single_done ps size now r fl3 sets3 li3 fl2 sets2
      li2 h

/-- A completed record loop over a nonempty record list leaves a nonempty
`sql_update_sets` (line 201 creates an entry for every record walked). -/
theorem throttle_loop_done_sets_ne_nil (ps : String) (size now : Int) :
    ∀ (rs : List Rcd) (fl : Flags) (sets : Sets) (li : Option Int)
    (fl2 : Flags) (sets2 : Sets) (li2 : Option Int),
    (sets ≠ [] ∨ rs ≠ []) →
    throttle_loop ps size now rs fl sets li = LoopOut.done fl2 sets2 li2 →
    sets2 ≠ [] := by
  intro rs
  induction rs with
  | nil =>
    intro fl sets li fl2 sets2 li2 hne h
    simp only [throttle_loop] at h
    cases h
    rcases hne with h1 | h1
    · exact h1
    · exact absurd rfl h1
  | cons rcd rest ih =>
    intro fl sets li fl2 sets2 li2 _ h
    simp only [throttle_loop] at h
    by_cases hp : rcd.period = 0
    · rw [if_pos hp] at h; cases h
    · rw [if_neg hp] at h
      by_cases hg1 : ps = rcpt_state ∧ fl.continue_check_max_msgs = true
      · rw [if_pos hg1] at h
        by_cases hrej : 0 < rcd.max_msgs ∧
            rcd.max_msgs ≤ eff_cur_msgs now rcd
        · rw [if_pos hrej] at h; cases h
        · rw [if_neg hrej] at h
          exact ih _ _ _ _ _ _ (Or.inl (dict_set_ne_nil sets rcd.id [])) h
      · rw [if_neg hg1] at h
        by_cases hg2 : ps = eom_state ∧
            (fl.continue_check_msg_size = true ∨
             fl.continue_check_max_quota = true)
        · rw [if_pos hg2] at h
          rcases he : eom_step size now rcd fl (dict_set sets rcd.id [])
            with a | ⟨fl3, sets3⟩
          · rw [he] at h; cases h
          · rw [he] at h
            rw [eom_step_eq] at he
            split_ifs at he
            all_goals cases he
            exact ih _ _ _ _ _ _
              (Or.inl (staged_ne_nil size now rcd fl _
                (dict_set_ne_nil sets rcd.id []))) h
        · rw [if_neg hg2] at h
          exact ih _ _ _ _ _ _ (Or.inl (dict_set_ne_nil sets rcd.id [])) h

/-- An early `return` inside the record loop is the whole call's result,
and executes no UPDATE. -/
theorem apply_throttle_of_ret (rs : List Rcd) (hne : rs ≠ [])
    (ps : String) (size now : Int) (a : Action)
    (h : throttle_loop ps size now rs initial_flags [] none =
      LoopOut.ret a) :
    apply_throttle rs ps size now = Except.ok (a, []) := by
  rcases rs with _ | ⟨x, xs⟩
  · exact absurd rfl hne
  · simp only [apply_throttle, h]

/-- `convert_go` raises ValueError exactly when some nonempty fragment
does not split on the colon into exactly two parts. -/
theorem convert_go_error_iff (b : Bool) :
    ∀ (items : List (List Char)) (sd : List (List Char × SVal)),
    (convert_go b items sd = Except.error PyErr.valueError ↔
      ∃ item ∈ items, item ≠ [] ∧ (py_split ':' item).length ≠ 2) := by
  intro items
  induction items with
  | nil => intro sd; simp [convert_go]
  | cons item rest ih =>
    intro sd
    simp only [convert_go]
    by_cases hne : item = []
    · rw [if_pos hne]
      simp [hne, ih]
    · rw [if_neg hne]
      rcases hsplit : py_split ':' item with _ | ⟨k, _ | ⟨v, _ | ⟨w, tl⟩⟩⟩
      · simp [hsplit, hne]
      · simp [hsplit, hne]
      · simp [hsplit, hne, ih]
      · simp [hsplit, hne]

/-- A non-default action in an `Except.ok` result can only come from an
early `return` out of the record loop. -/
theorem apply_throttle_ok_action (rs : List Rcd) (ps : String)
    (size now : Int) (a : Action) (stmts : List UpdateStmt)
    (h : apply_throttle rs ps size now = Except.ok (a, stmts))
    (ha : a ≠ Action.default) :
    throttle_loop ps size now rs initial_flags [] none =
      LoopOut.ret a := by
  rcases rs with _ | ⟨r, tl⟩
  · simp [apply_throttle] at h
    exact absurd h.1.symm ha
  · simp only [apply_throttle] at h
    split at h
    next b =>
      simp at h
      rw [b, h.1]
    next =>
      rename_i fl2 sets2 li2 heq
      exfalso
      by_cases hg : ps = eom_state ∧ sets2 ≠ []
      · rw [if_pos hg] at h
        rcases li2 with _ | t_id
        · simp at h
          exact ha h.1.symm
        · simp [commit_updates_error sets2 t_id hg.2] at h
      · rw [if_neg hg] at h
        simp at h
        exact ha h.1.symm

/-- Once `continue_check_msg_size` is cleared, no later record can produce
the message-size reject. -/
theorem eom_loop_no_msize_reject (size now : Int) :
    ∀ (rs : List Rcd) (fl : Flags) (sets : Sets) (li : Option Int),
    fl.continue_check_msg_size = false →
    throttle_loop eom_state size now rs fl sets li ≠
      LoopOut.ret Action.reject_exceed_msg_size := by
  intro rs
  induction rs with
  | nil =>
    intro fl sets li hf h
    simp [throttle_loop] at h
  | cons rcd rest ih =>
    intro fl sets li hf h
    simp only [throttle_loop] at h
    by_cases hp : rcd.period = 0
    · rw [if_pos hp] at h
      simp at h
    · rw [if_neg hp] at h
      rw [if_neg (fun hc => absurd hc.1 (by decide))] at h
      by_cases hg2 : fl.continue_check_msg_size = true ∨
          fl.continue_check_max_quota = true
      · rw [if_pos ⟨trivial, hg2⟩] at h
        rw [eom_step_eq] at h
        rw [if_neg (by simp [hf])] at h
        by_cases hB : fl.continue_check_max_quota = true ∧
            0 < rcd.max_quota ∧ rcd.max_quota ≤ eff_cur_quota now rcd
        · rw [if_pos hB] at h
          simp at h
        · rw [if_neg hB] at h
          exact ih _ _ _ (by simp [flags_after_eom, hf]) h
      · rw [if_neg (fun hc => hg2 hc.2)] at h
        exact ih _ _ _ hf h

/-! ## Claim theorems -/

/-- C1: in the END-OF-MESSAGE phase, when the message-size check or the
accumulated-quota check rejects, the function returns from inside the
record loop, before the commit loop at lines 299-309: the list of executed
UPDATE statements is empty, so every record's persisted `cur_msgs`,
`cur_quota`, `init_time` and `last_time` are unchanged — including records
evaluated earlier in the same call that had already staged updates. -/
theorem c1_eom_reject_no_mutation (rs : List Rcd) (size now : Int)
    (a : Action) (stmts : List UpdateStmt)
    (h : apply_throttle rs eom_state size now = Except.ok (a, stmts))
    (_hrej : a = Action.reject_exceed_msg_size ∨
      a = Action.reject_exceed_max_quota) :
    stmts = [] :=
  apply_throttle_ok_stmts_nil rs eom_state size now a stmts h

theorem c1_witness :
    apply_throttle [{ rcd_base with msg_size := 10 }] eom_state 20 1000 =
      Except.ok (Action.reject_exceed_msg_size, []) ∧
    (Action.reject_exceed_msg_size = Action.reject_exceed_msg_size ∨
      Action.reject_exceed_msg_size = Action.reject_exceed_max_quota) ∧
    ([] : List UpdateStmt) = [] := by
  refine ⟨by decide, Or.inl rfl, ?_⟩
  exact c1_eom_reject_no_mutation [{ rcd_base with msg_size := 10 }] 20
    1000 Action.reject_exceed_msg_size [] (by decide) (Or.inl rfl)

/-- C2: in the RCPT phase no UPDATE statement is ever executed and no
exception is raised, whatever the verdict and whether or not the tracking
window expired: the commit step at line 300 is guarded by
`protocol_state == END-OF-MESSAGE`, so the staged entries (including an
expired window's `init_time` reset) are discarded. -/
theorem c2_rcpt_never_updates (rs : List Rcd) (size now : Int) :
    ∃ a, apply_throttle rs rcpt_state size now = Except.ok (a, []) := by
  rcases rs with _ | ⟨r, tl⟩
  · exact ⟨Action.default, rfl⟩
  · simp only [apply_throttle]
    rcases hl : throttle_loop rcpt_state size now (r :: tl) initial_flags
      [] none with a | ⟨fl, sets, li⟩
    · exact ⟨a, by simp [hl]⟩
    · exact ⟨Action.default,
        by simp [hl, (by decide : ¬(rcpt_state = eom_state))]⟩

/-- C3: on the spec's scenario record (cur_msgs 99, within the window) an
END-OF-MESSAGE call with size 5000 passes both checks, stages the counter
updates, and then crashes with TypeError in the commit loop (line 302
joins the dict's integer key): the call returns no verdict at all and no
UPDATE is executed, so the persisted cur_msgs stays 99 instead of
becoming 100 as the spec states. -/
theorem c3_scenario_crashes :
    apply_throttle [rcd_base] eom_state 5000 1000 =
      Except.error PyErr.typeError := by decide

/-- C6: with `init_time = T0` and `period = P`, at `now = T0 + P` the
window is not expired and the stored counters are used, while at
`now = T0 + P + 1` it is expired and the effective counters used for the
limit comparisons are zero (`tracking_expired`, `eff_cur_msgs` and
`eff_cur_quota` are exactly the values the record loop uses). -/
theorem c6_window_expiry_boundary (rcd : Rcd) :
    (tracking_expired (rcd.init_time + rcd.period) rcd = false ∧
     eff_cur_msgs (rcd.init_time + rcd.period) rcd = rcd.cur_msgs ∧
     eff_cur_quota (rcd.init_time + rcd.period) rcd = rcd.cur_quota) ∧
    (tracking_expired (rcd.init_time + rcd.period + 1) rcd = true ∧
     eff_cur_msgs (rcd.init_time + rcd.period + 1) rcd = 0 ∧
     eff_cur_quota (rcd.init_time + rcd.period + 1) rcd = 0) := by
  have h1 : tracking_expired (rcd.init_time + rcd.period) rcd = false := by
    simp [tracking_expired]
  have h2 : tracking_expired (rcd.init_time + rcd.period + 1) rcd
      = true := by
    simp [tracking_expired]
  exact ⟨⟨h1, by simp [eff_cur_msgs, h1], by simp [eff_cur_quota, h1]⟩,
    ⟨h2, by simp [eff_cur_msgs, h2], by simp [eff_cur_quota, h2]⟩⟩

/-- C4 counterexample: a record list containing a `period = 0` record does
NOT always short-circuit to allow — a higher-priority record is evaluated
first and can reject (here in the RCPT phase), because the `period` test
at line 196 only runs when the walk reaches that record. -/
theorem c4_counterexample :
    (∃ r ∈ [{ rcd_base with max_msgs := 1, cur_msgs := 5 },
        { rcd_base with id := 2, period := 0 }], r.period = 0) ∧
    apply_throttle
      [{ rcd_base with max_msgs := 1, cur_msgs := 5 },
       { rcd_base with id := 2, period := 0 }] rcpt_state 0 1000 =
      Except.ok (Action.reject_exceed_max_msgs, []) := by
  constructor
  · decide
  · decide

/-- C4 (amended): if the walk reaches a record with `period = 0` before
any record has produced an early return — i.e. every higher-priority
record was evaluated without rejecting — the whole call returns the
default (allow) action immediately, with no further evaluation and no
UPDATE executed; records after it are silenced, but records before it may
still reject. -/
theorem c4_amended_period_zero_shortcircuit (pre post : List Rcd)
    (r0 : Rcd) (ps : String) (size now : Int) (fl2 : Flags) (sets2 : Sets)
    (li2 : Option Int) (hper : r0.period = 0)
    (hpre : throttle_loop ps size now pre initial_flags [] none =
      LoopOut.done fl2 sets2 li2) :
    apply_throttle (pre ++ r0 :: post) ps size now =
      Except.ok (Action.default, []) := by
  have hne : pre ++ r0 :: post ≠ [] := by simp
  apply apply_throttle_of_ret _ hne
  rw [throttle_loop_append, hpre]
  show throttle_loop ps size now (r0 :: post) fl2 sets2 li2 =
    LoopOut.ret Action.default
  simp only [throttle_loop]
  rw [if_pos hper]

theorem c4_amended_witness :
    apply_throttle
      [{ rcd_base with max_msgs := -1 },
       { rcd_base with id := 2, period := 0 },
       { rcd_base with id := 3, cur_msgs := 100 }] rcpt_state 0 1000 =
      Except.ok (Action.default, []) :=
  c4_amended_period_zero_shortcircuit
    [{ rcd_base with max_msgs := -1 }]
    [{ rcd_base with id := 3, cur_msgs := 100 }]
    { rcd_base with id := 2, period := 0 } rcpt_state 0 1000
    initial_flags [(1, [])] (some 1) rfl (by decide)

/-- C8 counterexample: the settings parser is not total — a fragment with
two colons makes the tuple unpacking at line 132 raise ValueError instead
of being dropped. -/
theorem c8_counterexample :
    convert_throttle_setting_to_dict ("a:b:c") true =
      Except.error PyErr.valueError := by decide

/-- A record list with an authoritative record is nonempty. -/
theorem find_auth_ne_nil {f : Rcd → Int} {rs : List Rcd} {r : Rcd}
    (h : find_auth f rs = some r) : rs ≠ [] := by
  intro hc
  subst hc
  simp [find_auth] at h

/-- RCPT walk characterisation: the loop rejects on max messages exactly
when the first record with a non-negative `max_msgs` (walking in priority
order, records with the inherit marker skipped for this dimension only)
has a positive limit not above the effective current counter. -/
theorem rcpt_loop_reject_iff (size now : Int) :
    ∀ (rs : List Rcd) (fl : Flags) (sets : Sets) (li : Option Int),
    (∀ r ∈ rs, r.period ≠ 0) →
    (throttle_loop rcpt_state size now rs fl sets li =
        LoopOut.ret Action.reject_exceed_max_msgs ↔
      fl.continue_check_max_msgs = true ∧
        ∃ r, find_auth (fun x => x.max_msgs) rs = some r ∧
          0 < r.max_msgs ∧ r.max_msgs ≤ eff_cur_msgs now r) := by
  intro rs
  induction rs with
  | nil =>
    intro fl sets li _
    simp [throttle_loop, find_auth]
  | cons rcd rest ih =>
    intro fl sets li hper
    have hpr : rcd.period ≠ 0 := hper rcd (List.mem_cons_self rcd rest)
    have hprest : ∀ r ∈ rest, r.period ≠ 0 :=
      fun r hr => hper r (List.mem_cons_of_mem rcd hr)
    simp only [throttle_loop]
    rw [if_neg hpr]
    by_cases hcm : fl.continue_check_max_msgs = true
    · rw [if_pos ⟨trivial, hcm⟩]
      by_cases hrej : 0 < rcd.max_msgs ∧
          rcd.max_msgs ≤ eff_cur_msgs now rcd
      · rw [if_pos hrej]
        constructor
        · intro _
          refine ⟨hcm, rcd, ?_, hrej.1, hrej.2⟩
          simp [find_auth, List.find?,
            show (0:Int) ≤ rcd.max_msgs from le_of_lt hrej.1]
        · intro _
          rfl
      · rw [if_neg hrej]
        by_cases hge : 0 ≤ rcd.max_msgs
        · rw [if_pos hge]
          rw [ih _ _ _ hprest]
          have h2 : find_auth (fun x => x.max_msgs) (rcd :: rest) =
              some rcd := by
            simp [find_auth, List.find?, hge]
          rw [h2]
          constructor
          · rintro ⟨hff, -⟩
            cases hff
          · rintro ⟨-, r, hr, hr1, hr2⟩
            cases hr
            exact absurd ⟨hr1, hr2⟩ hrej
        · rw [if_neg hge]
          rw [ih _ _ _ hprest]
          have h2 : find_auth (fun x => x.max_msgs) (rcd :: rest) =
              find_auth (fun x => x.max_msgs) rest := by
            simp [find_auth, List.find?, hge]
          rw [h2]
    · rw [if_neg (fun hc => hcm hc.2)]
      rw [if_neg (fun hc => absurd hc.1 (by decide))]
      rw [ih _ _ _ hprest]
      constructor
      · rintro ⟨hf, -⟩
        exact absurd hf hcm
      · rintro ⟨hf, -⟩
        exact absurd hf hcm

/-- END-OF-MESSAGE walk characterisation for the message-size dimension
(under the assumption that no record's quota check would reject): the loop
rejects on message size exactly when the first record with a non-negative
`msg_size` has a positive limit strictly below the incoming size. -/
theorem eom_loop_reject_msize_iff (size now : Int) :
    ∀ (rs : List Rcd) (fl : Flags) (sets : Sets) (li : Option Int),
    (∀ r ∈ rs, r.period ≠ 0) →
    (∀ r ∈ rs, ¬(0 < r.max_quota ∧ r.max_quota ≤ eff_cur_quota now r)) →
    (throttle_loop eom_state size now rs fl sets li =
        LoopOut.ret Action.reject_exceed_msg_size ↔
      fl.continue_check_msg_size = true ∧
        ∃ r, find_auth (fun x => x.msg_size) rs = some r ∧
          0 < r.msg_size ∧ r.msg_size < size) := by
  intro rs
  induction rs with
  | nil =>
    intro fl sets li _ _
    simp [throttle_loop, find_auth]
  | cons rcd rest ih =>
    intro fl sets li hper hq
    have hpr : rcd.period ≠ 0 := hper rcd (List.mem_cons_self rcd rest)
    have hprest : ∀ r ∈ rest, r.period ≠ 0 :=
      fun r hr => hper r (List.mem_cons_of_mem rcd hr)
    have hqr : ¬(0 < rcd.max_quota ∧
        rcd.max_quota ≤ eff_cur_quota now rcd) :=
      hq rcd (List.mem_cons_self rcd rest)
    have hqrest : ∀ r ∈ rest,
        ¬(0 < r.max_quota ∧ r.max_quota ≤ eff_cur_quota now r) :=
      fun r hr => hq r (List.mem_cons_of_mem rcd hr)
    simp only [throttle_loop]
    rw [if_neg hpr]
    rw [if_neg (fun hc => absurd hc.1 (by decide))]
    by_cases hcc : fl.continue_check_msg_size = true ∨
        fl.continue_check_max_quota = true
    · rw [if_pos ⟨trivial, hcc⟩]
      rw [eom_step_eq]
      by_cases hA : fl.continue_check_msg_size = true ∧
          0 < rcd.msg_size ∧ rcd.msg_size < size
      · rw [if_pos hA]
        constructor
        · intro _
          refine ⟨hA.1, rcd, ?_, hA.2.1, hA.2.2⟩
          simp [find_auth, List.find?,
            show (0:Int) ≤ rcd.msg_size from le_of_lt hA.2.1]
        · intro _
          rfl
      · rw [if_neg hA]
        rw [if_neg (fun hc => hqr ⟨hc.2.1, hc.2.2⟩)]
        show (throttle_loop eom_state size now rest
            (flags_after_eom fl rcd)
            (staged size now rcd fl (dict_set sets rcd.id []))
            (some rcd.id) =
          LoopOut.ret Action.reject_exceed_msg_size) ↔ _
        rw [ih _ _ _ hprest hqrest]
        by_cases hneg : rcd.msg_size < 0
        · have h1 : (flags_after_eom fl rcd).continue_check_msg_size =
              fl.continue_check_msg_size := by
            simp [flags_after_eom, hneg]
          have h2 : find_auth (fun x => x.msg_size) (rcd :: rest) =
              find_auth (fun x => x.msg_size) rest := by
            simp [find_auth, List.find?, show ¬(0 ≤ rcd.msg_size) by omega]
          rw [h1, h2]
        · have h1 : (flags_after_eom fl rcd).continue_check_msg_size =
              false := by
            simp [flags_after_eom, hneg]
          have h2 : find_auth (fun x => x.msg_size) (rcd :: rest) =
              some rcd := by
            simp [find_auth, List.find?, show (0:Int) ≤ rcd.msg_size by omega]
          rw [h1, h2]
          constructor
          · rintro ⟨hff, -⟩
            cases hff
          · rintro ⟨hcms, r, hr, hr1, hr2⟩
            cases hr
            exact absurd ⟨hcms, hr1, hr2⟩ hA
    · rw [if_neg (fun hc => hcc hc.2)]
      rw [ih _ _ _ hprest hqrest]
      have hcms : ¬fl.continue_check_msg_size = true :=
        fun h => hcc (Or.inl h)
      constructor
      · rintro ⟨hf, -⟩
        exact absurd hf hcms
      · rintro ⟨hf, -⟩
        exact absurd hf hcms

/-- END-OF-MESSAGE walk characterisation for the accumulated-quota
dimension (under the assumption that no record's message-size check would
reject): the loop rejects on quota exactly when the first record with a
non-negative `max_quota` has a positive limit not above the effective
current quota. -/
theorem eom_loop_reject_quota_iff (size now : Int) :
    ∀ (rs : List Rcd) (fl : Flags) (sets : Sets) (li : Option Int),
    (∀ r ∈ rs, r.period ≠ 0) →
    (∀ r ∈ rs, ¬(0 < r.msg_size ∧ r.msg_size < size)) →
    (throttle_loop eom_state size now rs fl sets li =
        LoopOut.ret Action.reject_exceed_max_quota ↔
      fl.continue_check_max_quota = true ∧
        ∃ r, find_auth (fun x => x.max_quota) rs = some r ∧
          0 < r.max_quota ∧ r.max_quota ≤ eff_cur_quota now r) := by
  intro rs
  induction rs with
  | nil =>
    intro fl sets li _ _
    simp [throttle_loop, find_auth]
  | cons rcd rest ih =>
    intro fl sets li hper hm
    have hpr : rcd.period ≠ 0 := hper rcd (List.mem_cons_self rcd rest)
    have hprest : ∀ r ∈ rest, r.period ≠ 0 :=
      fun r hr => hper r (List.mem_cons_of_mem rcd hr)
    have hmr : ¬(0 < rcd.msg_size ∧ rcd.msg_size < size) :=
      hm rcd (List.mem_cons_self rcd rest)
    have hmrest : ∀ r ∈ rest, ¬(0 < r.msg_size ∧ r.msg_size < size) :=
      fun r hr => hm r (List.mem_cons_of_mem rcd hr)
    simp only [throttle_loop]
    rw [if_neg hpr]
    rw [if_neg (fun hc => absurd hc.1 (by decide))]
    by_cases hcc : fl.continue_check_msg_size = true ∨
        fl.continue_check_max_quota = true
    · rw [if_pos ⟨trivial, hcc⟩]
      rw [eom_step_eq]
      rw [if_neg (fun hc => hmr ⟨hc.2.1, hc.2.2⟩)]
      by_cases hB : fl.continue_check_max_quota = true ∧
          0 < rcd.max_quota ∧ rcd.max_quota ≤ eff_cur_quota now rcd
      · rw [if_pos hB]
        constructor
        · intro _
          refine ⟨hB.1, rcd, ?_, hB.2.1, hB.2.2⟩
          simp [find_auth, List.find?,
            show (0:Int) ≤ rcd.max_quota from le_of_lt hB.2.1]
        · intro _
          rfl
      · rw [if_neg hB]
        show (throttle_loop eom_state size now rest
            (flags_after_eom fl rcd)
            (staged size now rcd fl (dict_set sets rcd.id []))
            (some rcd.id) =
          LoopOut.ret Action.reject_exceed_max_quota) ↔ _
        rw [ih _ _ _ hprest hmrest]
        by_cases hneg : rcd.max_quota < 0
        · have h1 : (flags_after_eom fl rcd).continue_check_max_quota =
              fl.continue_check_max_quota := by
            simp [flags_after_eom, hneg]
          have h2 : find_auth (fun x => x.max_quota) (rcd :: rest) =
              find_auth (fun x => x.max_quota) rest := by
            simp [find_auth, List.find?,
              show ¬(0 ≤ rcd.max_quota) by omega]
          rw [h1, h2]
        · have h1 : (flags_after_eom fl rcd).continue_check_max_quota =
              false := by
            simp [flags_after_eom, hneg]
          have h2 : find_auth (fun x => x.max_quota) (rcd :: rest) =
              some rcd := by
            simp [find_auth, List.find?,
              show (0:Int) ≤ rcd.max_quota by omega]
          rw [h1, h2]
          constructor
          · rintro ⟨hff, -⟩
            cases hff
          · rintro ⟨hcmq, r, hr, hr1, hr2⟩
            cases hr
            exact absurd ⟨hcmq, hr1, hr2⟩ hB
    · rw [if_neg (fun hc => hcc hc.2)]
      rw [ih _ _ _ hprest hmrest]
      have hcmq : ¬fl.continue_check_max_quota = true :=
        fun h => hcc (Or.inr h)
      constructor
      · rintro ⟨hf, -⟩
        exact absurd hf hcmq
      · rintro ⟨hf, -⟩
        exact absurd hf hcmq

/-- C5: each limit dimension resolves independently along the walk in
priority order: records with a negative value (`-1`, inherit) are skipped
for that dimension only, and the first record with a value `0` or positive
(`find_auth`) is the one whose check decides that dimension's reject,
regardless of lower-priority records (a `0` is authoritative and disables
the check).  Stated per dimension — `max_msgs` in the RCPT phase, and
`msg_size` / `max_quota` in the END-OF-MESSAGE phase, each under the
assumption that the other END-OF-MESSAGE dimension does not reject, since
a reject of one dimension ends the walk for all of them. -/
theorem c5_dimension_resolution (rs : List Rcd) (size now : Int)
    (hper : ∀ r ∈ rs, r.period ≠ 0) :
    (apply_throttle rs rcpt_state size now =
        Except.ok (Action.reject_exceed_max_msgs, []) ↔
      ∃ r, find_auth (fun x => x.max_msgs) rs = some r ∧
        0 < r.max_msgs ∧ r.max_msgs ≤ eff_cur_msgs now r) ∧
    ((∀ r ∈ rs, ¬(0 < r.max_quota ∧ r.max_quota ≤ eff_cur_quota now r)) →
      (apply_throttle rs eom_state size now =
          Except.ok (Action.reject_exceed_msg_size, []) ↔
        ∃ r, find_auth (fun x => x.msg_size) rs = some r ∧
          0 < r.msg_size ∧ r.msg_size < size)) ∧
    ((∀ r ∈ rs, ¬(0 < r.msg_size ∧ r.msg_size < size)) →
      (apply_throttle rs eom_state size now =
          Except.ok (Action.reject_exceed_max_quota, []) ↔
        ∃ r, find_auth (fun x => x.max_quota) rs = some r ∧
          0 < r.max_quota ∧ r.max_quota ≤ eff_cur_quota now r)) := by
  refine ⟨?_, ?_, ?_⟩
  · constructor
    · intro h
      have hloop := apply_throttle_ok_action rs rcpt_state size now _ []
        h (by simp)
      exact ((rcpt_loop_reject_iff size now rs initial_flags [] none
        hper).mp hloop).2
    · intro hex
      have hne : rs ≠ [] := by
        obtain ⟨r, hr, -, -⟩ := hex
        exact find_auth_ne_nil hr
      apply apply_throttle_of_ret rs hne
      exact (rcpt_loop_reject_iff size now rs initial_flags [] none
        hper).mpr ⟨rfl, hex⟩
  · intro hq
    constructor
    · intro h
      have hloop := apply_throttle_ok_action rs eom_state size now _ []
        h (by simp)
      exact ((eom_loop_reject_msize_iff size now rs initial_flags [] none
        hper hq).mp hloop).2
    · intro hex
      have hne : rs ≠ [] := by
        obtain ⟨r, hr, -, -⟩ := hex
        exact find_auth_ne_nil hr
      apply apply_throttle_of_ret rs hne
      exact (eom_loop_reject_msize_iff size now rs initial_flags [] none
        hper hq).mpr ⟨rfl, hex⟩
  · intro hm
    constructor
    · intro h
      have hloop := apply_throttle_ok_action rs eom_state size now _ []
        h (by simp)
      exact ((eom_loop_reject_quota_iff size now rs initial_flags [] none
        hper hm).mp hloop).2
    · intro hex
      have hne : rs ≠ [] := by
        obtain ⟨r, hr, -, -⟩ := hex
        exact find_auth_ne_nil hr
      apply apply_throttle_of_ret rs hne
      exact (eom_loop_reject_quota_iff size now rs initial_flags [] none
        hper hm).mpr ⟨rfl, hex⟩

theorem c5_witness :
    apply_throttle [rcd_inherit, rcd_low] rcpt_state 0 1000 =
      Except.ok (Action.reject_exceed_max_msgs, []) ∧
    apply_throttle [rcd_inherit, rcd_low] eom_state 100 1000 =
      Except.ok (Action.reject_exceed_msg_size, []) ∧
    apply_throttle [rcd_inherit, rcd_quota] eom_state 100 1000 =
      Except.ok (Action.reject_exceed_max_quota, []) := by
  refine ⟨?_, ?_, ?_⟩
  · exact ((c5_dimension_resolution [rcd_inherit, rcd_low] 0 1000
      (by decide)).1).mpr ⟨rcd_low, by decide⟩
  · exact ((c5_dimension_resolution [rcd_inherit, rcd_low] 100 1000
      (by decide)).2.1 (by decide)).mpr ⟨rcd_low, by decide⟩
  · exact ((c5_dimension_resolution [rcd_inherit, rcd_quota] 100 1000
      (by decide)).2.2 (by decide)).mpr ⟨rcd_quota, by decide⟩

/-- C9: when the highest-priority record is authoritative for `msg_size`
with a positive limit, the END-OF-MESSAGE call returns the
message-too-large reject exactly when the incoming size is strictly
greater than the limit (line 261: `size > msg_size`); a message whose
size equals the limit is not rejected by this check. -/
theorem c9_msg_size_strict (r : Rcd) (rest : List Rcd) (size now : Int)
    (hper : r.period ≠ 0) (hpos : 0 < r.msg_size) :
    (apply_throttle (r :: rest) eom_state size now =
        Except.ok (Action.reject_exceed_msg_size, []) ↔
      r.msg_size < size) := by
  constructor
  · intro h
    by_cases hlt : r.msg_size < size
    · exact hlt
    · exfalso
      have hloop := apply_throttle_ok_action (r :: rest) eom_state size
        now Action.reject_exceed_msg_size [] h (by simp)
      simp only [throttle_loop] at hloop
      rw [if_neg hper] at hloop
      rw [if_neg (fun hc => absurd hc.1 (by decide))] at hloop
      rw [if_pos ⟨trivial, Or.inl rfl⟩] at hloop
      rw [eom_step_eq] at hloop
      rw [if_neg (fun hc => hlt hc.2.2)] at hloop
      by_cases hB : initial_flags.continue_check_max_quota = true ∧
          0 < r.max_quota ∧ r.max_quota ≤ eff_cur_quota now r
      · rw [if_pos hB] at hloop
        simp at hloop
      · rw [if_neg hB] at hloop
        exact eom_loop_no_msize_reject size now rest _ _ _
          (by simp [flags_after_eom, show ¬(r.msg_size < 0) by omega])
          hloop
  · intro hlt
    apply apply_throttle_of_ret _ (by simp)
    simp only [throttle_loop]
    rw [if_neg hper]
    rw [if_neg (fun hc => absurd hc.1 (by decide))]
    rw [if_pos ⟨trivial, Or.inl rfl⟩]
    rw [eom_step_eq]
    rw [if_pos ⟨rfl, hpos, hlt⟩]

theorem c9_witness :
    apply_throttle [{ rcd_base with id := 7, msg_size := 10 }] eom_state
      20 1000 = Except.ok (Action.reject_exceed_msg_size, []) :=
  (c9_msg_size_strict { rcd_base with id := 7, msg_size := 10 } [] 20
    1000 (by decide) (by decide)).mpr (by decide)

/-- C8 (amended): fragments without a colon are dropped silently and the
parse continues; a fragment with exactly one colon is always kept (its
value stays the raw string when it is not a well-formed integer, it is
not dropped); but the parser CAN fail: it raises ValueError exactly when
some fragment contains two or more colons. -/
theorem c8_amended_settings (s : String) (b : Bool) :
    (convert_throttle_setting_to_dict s b =
        Except.error PyErr.valueError ↔
      ∃ item ∈ (py_split ';' s.toList).filter
          (fun st => st.any (fun c => c == ':')),
        (py_split ':' item).length ≠ 2) ∧
    convert_throttle_setting_to_dict ("max_msgs:abc") true =
      Except.ok [(("max_msgs").toList, SVal.str ("abc").toList)] := by
  constructor
  · by_cases hs : s = ""
    · subst hs
      have hok : convert_throttle_setting_to_dict ("") b =
          Except.ok [] := by
        rw [convert_throttle_setting_to_dict, if_pos rfl]
      have hfe : (py_split ';' (("") : String).toList).filter
          (fun st => st.any (fun c => c == ':')) = [] := by decide
      constructor
      · intro h
        rw [hok] at h
        cases h
      · rintro ⟨item, hm, _⟩
        rw [hfe] at hm
        simp at hm
    · rw [convert_throttle_setting_to_dict, if_neg hs]
      rw [convert_go_error_iff]
      constructor
      · rintro ⟨item, hm, _, hbad⟩
        exact ⟨item, hm, hbad⟩
      · rintro ⟨item, hm, hbad⟩
        refine ⟨item, hm, ?_, hbad⟩
        have hany := (List.mem_filter.mp hm).2
        intro hnil
        subst hnil
        simp at hany
  · decide

/-- A fallthrough into the commit step with staged updates always raises
TypeError before any UPDATE is executed. -/
theorem apply_throttle_done_eom_error (rs : List Rcd) (size now : Int)
    (fl2 : Flags) (sets2 : Sets) (t_id : Int) (hne : rs ≠ [])
    (h : throttle_loop eom_state size now rs initial_flags [] none =
      LoopOut.done fl2 sets2 (some t_id)) (hs : sets2 ≠ []) :
    apply_throttle rs eom_state size now =
      Except.error PyErr.typeError := by
  rcases rs with _ | ⟨x, xs2⟩
  · exact absurd rfl hne
  · simp only [apply_throttle, h]
    simp [hs, commit_updates_error sets2 t_id hs]

/-- C7: the outer dispatcher — a same-domain sender/recipient pair, or a
trusted client when the bypass flag is set, is allowed unconditionally
with zero throttle-table lookups; otherwise the sender check runs first
and its verdict is final whenever it is not the pass-through (DUNNO)
action, the recipient check running (and being final, pass-through or
not) only when the sender check passed through.  The results are
quantified over both tables' record lists, so the bypass cases are
independent of any stored policy. -/
theorem c7_outer_decision_order (sender_records rcpt_records : List Rcd)
    (sd rd : String) (bp tr : Bool) (ps : String) (size now : Int) :
    (sd = rd →
      restriction sender_records rcpt_records sd rd bp tr ps size now =
        Except.ok (Action.default, 0, [])) ∧
    (bp = true → tr = true →
      restriction sender_records rcpt_records sd rd bp tr ps size now =
        Except.ok (Action.default, 0, [])) ∧
    (sd ≠ rd → ¬(bp = true ∧ tr = true) →
      ∀ a us, apply_throttle sender_records ps size now =
          Except.ok (a, us) → a ≠ Action.default →
        restriction sender_records rcpt_records sd rd bp tr ps size now =
          Except.ok (a, 1, us)) ∧
    (sd ≠ rd → ¬(bp = true ∧ tr = true) →
      ∀ us, apply_throttle sender_records ps size now =
          Except.ok (Action.default, us) →
        ((∀ e, apply_throttle rcpt_records ps size now =
            Except.error e →
          restriction sender_records rcpt_records sd rd bp tr ps size
            now = Except.error e) ∧
         (∀ a2 us2, apply_throttle rcpt_records ps size now =
            Except.ok (a2, us2) →
          restriction sender_records rcpt_records sd rd bp tr ps size
            now = Except.ok (a2, 2, us ++ us2)))) := by
  refine ⟨?_, ?_, ?_, ?_⟩
  · intro hsd
    simp [restriction, hsd]
  · intro hb ht
    by_cases hsd : sd = rd
    · simp [restriction, hsd]
    · simp [restriction, hsd, hb, ht]
  · intro hsd hbt a us hap hand
    have hbt2 : ¬(bp && tr) = true := by
      simp only [Bool.and_eq_true]
      exact hbt
    have hsw : startswith_dunno a = false := by
      cases a
      · exact absurd rfl hand
      all_goals rfl
    simp only [restriction, if_neg hsd, if_neg hbt2, hap]
    simp [hsw]
  · intro hsd hbt us hap
    have hbt2 : ¬(bp && tr) = true := by
      simp only [Bool.and_eq_true]
      exact hbt
    constructor
    · intro e he
      simp only [restriction, if_neg hsd, if_neg hbt2, hap, he]
      simp [startswith_dunno]
    · intro a2 us2 ha2
      simp only [restriction, if_neg hsd, if_neg hbt2, hap, ha2]
      cases a2 <;> simp [startswith_dunno]

theorem c7_witness :
    restriction [] [] ("d") ("d") false false rcpt_state 0 1000 =
      Except.ok (Action.default, 0, []) ∧
    restriction [] [] ("a") ("b") true true rcpt_state 0 1000 =
      Except.ok (Action.default, 0, []) ∧
    restriction [{ rcd_base with max_msgs := 1, cur_msgs := 5 }] []
        ("a") ("b") false false rcpt_state 0 1000 =
      Except.ok (Action.reject_exceed_max_msgs, 1, []) ∧
    restriction [] [{ rcd_base with max_msgs := 1, cur_msgs := 5 }]
        ("a") ("b") false false rcpt_state 0 1000 =
      Except.ok (Action.reject_exceed_max_msgs, 2, []) := by
  refine ⟨?_, ?_, ?_, ?_⟩
  · exact (c7_outer_decision_order [] [] ("d") ("d") false false
      rcpt_state 0 1000).1 rfl
  · exact (c7_outer_decision_order [] [] ("a") ("b") true true
      rcpt_state 0 1000).2.1 rfl rfl
  · exact (c7_outer_decision_order
      [{ rcd_base with max_msgs := 1, cur_msgs := 5 }] [] ("a") ("b")
      false false rcpt_state 0 1000).2.2.1 (by decide) (by simp)
      Action.reject_exceed_max_msgs [] (by decide) (by decide)
  · exact ((c7_outer_decision_order []
      [{ rcd_base with max_msgs := 1, cur_msgs := 5 }] ("a") ("b")
      false false rcpt_state 0 1000).2.2.2 (by decide) (by simp) []
      rfl).2 Action.reject_exceed_max_msgs [] (by decide)

/-- C10: when an END-OF-MESSAGE walk falls through to the commit loop,
the loop iterates the KEYS of `sql_update_sets` (`for update_set in
sql_update_sets`), so each iteration hands the integer record id — not
that record's staged assignment list — to `','.join`, and formats every
`WHERE id=%d` with `t_id`, the loop variable left over from the record
loop, i.e. the id of the LAST record read, not the id of the entry being
committed.  Joining an integer key raises TypeError on the first
iteration, so no UPDATE ever reaches the database and the whole call
raises. -/
theorem c10_commit_uses_last_id_and_joins_keys (xs : List Rcd) (r : Rcd)
    (size now : Int) (fl2 : Flags) (sets2 : Sets) (li2 : Option Int)
    (h : throttle_loop eom_state size now (xs ++ [r]) initial_flags []
      none = LoopOut.done fl2 sets2 li2) :
    li2 = some r.id ∧
    (∀ p ∈ commit_attempts sets2 r.id, p.2 = r.id) ∧
    sets2 ≠ [] ∧
    commit_updates sets2 r.id = Except.error PyErr.typeError ∧
    apply_throttle (xs ++ [r]) eom_state size now =
      Except.error PyErr.typeError := by
  have hli : li2 = some r.id :=
    throttle_loop_last_id eom_state size now xs r initial_flags [] none
      fl2 sets2 li2 h
  have hne : sets2 ≠ [] :=
    throttle_loop_done_sets_ne_nil eom_state size now (xs ++ [r])
      initial_flags [] none fl2 sets2 li2 (Or.inr (by simp)) h
  rw [hli] at h
  refine ⟨hli, ?_, hne, commit_updates_error sets2 r.id hne,
    apply_throttle_done_eom_error (xs ++ [r]) size now fl2 sets2 r.id
      (by simp) h hne⟩
  intro p hp
  simp only [commit_attempts, List.mem_map] at hp
  obtain ⟨kv, -, hkv⟩ := hp
  cases hkv
  rfl

theorem c10_witness :
    (some (2:Int) = some rcd_zeroB.id) ∧
    ((1:Int), (2:Int)).2 = rcd_zeroB.id ∧
    commit_updates [((1:Int), [Assign.last_time_set 1000]),
      ((2:Int), [])] rcd_zeroB.id = Except.error PyErr.typeError ∧
    apply_throttle [rcd_zeroA, rcd_zeroB] eom_state 5000 1000 =
      Except.error PyErr.typeError := by
  have h := c10_commit_uses_last_id_and_joins_keys [rcd_zeroA] rcd_zeroB
    5000 1000 ⟨false, true, false⟩
    [((1:Int), [Assign.last_time_set 1000]), ((2:Int), [])] (some 2)
    (by decide)
  exact ⟨h.1, h.2.1 ((1:Int), (2:Int)) (by decide), h.2.2.2.1,
    h.2.2.2.2⟩

end Throttling
